import Mathlib

/-!
Verification of the submission-lifecycle core of the staging-pro admin
console.  The definitions below are shallow embeddings of the TypeScript
source in `components/AdminDashboard.tsx` and `components/DetailModal.tsx`:
optional string fields use `""` for the absent value (matching JavaScript
truthiness of `undefined`/`""`), numeric amounts are `Int`, timestamps are
`Nat`, and partial record updates (`Partial<Submission>`) are structures of
`Option` fields applied by a store-side merge.
-/

namespace StagingPro

/-- Product plan types; the source only tests equality against
`FURNITURE_BOTH` and `FLOOR_PLAN_CG`, all other variants are opaque. -/
inductive PlanType where
  | FURNITURE_BOTH
  | FLOOR_PLAN_CG
  | OTHER (name : String)
deriving DecidableEq, Repr

/-- Submission lifecycle status strings used by the source. -/
inductive Status where
  | pending
  | processing
  | reviewing
  | completed
  | quote_request
deriving DecidableEq, Repr

/-- Payment status strings used by the source. -/
inductive PaymentStatus where
  | unpaid
  | quote_pending
  | paid
deriving DecidableEq, Repr

/-- Sender roles of chat messages and of users. -/
inductive Role where
  | user
  | admin
  | editor
deriving DecidableEq, Repr

/-- The submission record (`Submission` in `../types`), restricted to the
fields the admin console reads or writes.  Result-URL fields use `""` for
the JavaScript-falsy absent value. -/
structure Submission where
  id : String
  plan : PlanType
  status : Status
  paymentStatus : PaymentStatus
  quotedAmount : Option Int
  resultRemoveUrl : String
  resultAddUrl : String
  resultDataUrl : String
  assignedEditorId : Option String
  timestamp : Nat
deriving DecidableEq, Repr

/-- The delivery stage passed to `DeliveryDropZone` as `type`. -/
inductive UploadType where
  | remove
  | add
  | single
deriving DecidableEq, Repr

/-- A `Partial<Submission>` as built by `handleUpload` and
`handleUpdateQuote`: `none` means the field is not part of the update. -/
structure SubmissionUpdates where
  resultRemoveUrl : Option String := none
  resultAddUrl : Option String := none
  resultDataUrl : Option String := none
  status : Option Status := none
  quotedAmount : Option Int := none
deriving DecidableEq, Repr

/-- The store's partial-field update (`db.submissions.update` /
`onDeliver`): fields present in the update replace the record's, all other
fields are left untouched. -/
def applyUpdates (s : Submission) (u : SubmissionUpdates) : Submission :=
  { s with
    resultRemoveUrl := u.resultRemoveUrl.getD s.resultRemoveUrl
    resultAddUrl := u.resultAddUrl.getD s.resultAddUrl
    resultDataUrl := u.resultDataUrl.getD s.resultDataUrl
    status := u.status.getD s.status
    quotedAmount := match u.quotedAmount with
      | some a => some a
      | none => s.quotedAmount }

/-- The update object built by `handleUpload` in `AdminDashboard.tsx`
(lines 173-180) from the captured `submission` snapshot, the stage `type`
and the `publicUrl` returned by blob storage:
a `remove` delivery sets `resultRemoveUrl`, an `add` or `single` delivery
sets both `resultAddUrl` and `resultDataUrl`; then the next status is
recomputed (`reviewing` for non-dual plans unconditionally; for
`FURNITURE_BOTH` only when the delivered stage together with the snapshot
shows both stage results). -/
def computeDeliveryUpdates (submission : Submission) (ty : UploadType)
    (publicUrl : String) : SubmissionUpdates :=
  let updates : SubmissionUpdates :=
    if ty = UploadType.remove then
      { resultRemoveUrl := some publicUrl }
    else
      { resultAddUrl := some publicUrl, resultDataUrl := some publicUrl }
  let newStatus : Status :=
    if submission.plan = PlanType.FURNITURE_BOTH then
      if (ty = UploadType.remove ∨ submission.resultRemoveUrl ≠ "") ∧
         (ty = UploadType.add ∨ submission.resultAddUrl ≠ "") then
        Status.reviewing
      else
        submission.status
    else
      Status.reviewing
  { updates with status := some newStatus }

/-- A completed delivery in the sequential case: the update computed from
the current record is applied to that same record (the `onDeliver` write). -/
def deliver (s : Submission) (ty : UploadType) (publicUrl : String) :
    Submission :=
  applyUpdates s (computeDeliveryUpdates s ty publicUrl)

/-- `handleUpload` including the blob upload: when `db.storage.upload`
fails, the exception propagates before the update object is built, so the
record is untouched and the failure is the outcome; on success the computed
update is written. -/
def handleUpload (s : Submission) (ty : UploadType)
    (uploadResult : Except String String) :
    Submission × Except String Unit :=
  match uploadResult with
  | Except.error e => (s, Except.error e)
  | Except.ok publicUrl =>
      (applyUpdates s (computeDeliveryUpdates s ty publicUrl), Except.ok ())

/-- JavaScript whitespace accepted by `parseInt` before the number. -/
def jsIsSpace (c : Char) : Bool :=
  c = ' ' || c = '\t' || c = '\n' || c = '\r' || c = '\x0b' || c = '\x0c'

/-- Value of a single character as a base-16 digit. -/
def hexDigitVal (c : Char) : Option Nat :=
  if '0' ≤ c ∧ c ≤ '9' then some (c.toNat - '0'.toNat)
  else if 'a' ≤ c ∧ c ≤ 'f' then some (c.toNat - 'a'.toNat + 10)
  else if 'A' ≤ c ∧ c ≤ 'F' then some (c.toNat - 'A'.toNat + 10)
  else none

/-- Value of a single character as a digit in the given radix. -/
def digitVal (radix : Nat) (c : Char) : Option Nat :=
  match hexDigitVal c with
  | some v => if v < radix then some v else none
  | none => none

/-- JavaScript `parseInt(s)` with the default radix: skip leading
whitespace, read an optional sign, switch to base 16 after a `0x`/`0X`
prefix, consume the longest run of valid digits ignoring any trailing
characters, and return `NaN` (here `none`) when no digit was consumed. -/
def parseIntJS (s : String) : Option Int :=
  let cs := s.data.dropWhile jsIsSpace
  let signAndRest : Int × List Char :=
    match cs with
    | '-' :: rest => (-1, rest)
    | '+' :: rest => (1, rest)
    | _ => (1, cs)
  let radixAndDigits : Nat × List Char :=
    match signAndRest.2 with
    | '0' :: 'x' :: rest => (16, rest)
    | '0' :: 'X' :: rest => (16, rest)
    | other => (10, other)
  let digits := radixAndDigits.2.takeWhile
    (fun c => (digitVal radixAndDigits.1 c).isSome)
  if digits.isEmpty then none
  else
    some (signAndRest.1 *
      (Int.ofNat (digits.foldl
        (fun acc c => acc * radixAndDigits.1 + (digitVal radixAndDigits.1 c).getD 0) 0)))

/-- The exact remediation statement `handleUpdateQuote` stores into the
`schemaError` state when the quote write fails. -/
def migrationSQL : String :=
  "ALTER TABLE submissions ADD COLUMN IF NOT EXISTS \"quotedAmount\" bigint;"

/-- Outcome of a `db.submissions.update` call, as seen by the `catch`
block: the source does not inspect the error, but the model keeps the
cause so claims about distinguishing causes can be stated. -/
inductive DbError where
  | missingColumn (column : String)
  | otherFailure (message : String)
deriving DecidableEq, Repr

/-- The observable effects of one `handleUpdateQuote` call. -/
structure QuoteOutcome where
  dbWriteRequested : Option Int
  alertShown : Bool
  schemaError : Option String
deriving DecidableEq, Repr

/-- `handleUpdateQuote` in `AdminDashboard.tsx` (lines 80-100): parse the
entered amount with `parseInt`; when it is `NaN` or `≤ 0`, alert and
return before any write; otherwise request the write
`db.submissions.update(id, ⟨quotedAmount = amount⟩)` — on success the
`schemaError` state is cleared, on any caught error it is set to the
migration statement. -/
def handleUpdateQuote (quoteAmount : String) (prevSchemaError : Option String)
    (dbResult : Except DbError Unit) : QuoteOutcome :=
  match parseIntJS quoteAmount with
  | none =>
      { dbWriteRequested := none, alertShown := true,
        schemaError := prevSchemaError }
  | some amount =>
      if amount ≤ 0 then
        { dbWriteRequested := none, alertShown := true,
          schemaError := prevSchemaError }
      else
        match dbResult with
        | Except.ok _ =>
            { dbWriteRequested := some amount, alertShown := false,
              schemaError := none }
        | Except.error _ =>
            { dbWriteRequested := some amount, alertShown := false,
              schemaError := some migrationSQL }

/-- The submission record after a `handleUpdateQuote` call: it changes
only when the write was requested and the store accepted it, in which case
`quotedAmount` is replaced. -/
def recordAfterQuote (s : Submission) (quoteAmount : String)
    (dbResult : Except DbError Unit) : Submission :=
  match (handleUpdateQuote quoteAmount none dbResult).dbWriteRequested,
        dbResult with
  | some amount, Except.ok _ => { s with quotedAmount := some amount }
  | _, _ => s

/-- `canAct` in `AdminDashboard.tsx` (line 402): the approve/reject
controls are active only for a `reviewing` submission viewed by an admin. -/
def canAct (sub : Submission) (userRole : Role) : Bool :=
  decide (sub.status = Status.reviewing) && decide (userRole = Role.admin)

/-- Modelled from the spec: the `approve` transition of the Review Gate.
Its implementation is behind the `onApprove` callback prop, which is not
under `src/`; the spec states `reviewing --approve--> completed`, guarded
by the admin role, and any other invocation is an invalid-transition
error.  The guard is the source's `canAct`. -/
def approve (userRole : Role) (sub : Submission) : Except String Submission :=
  if canAct sub userRole then
    Except.ok { sub with status := Status.completed }
  else
    Except.error "invalid transition"

/-- Modelled from the spec: the `reject` transition of the Review Gate.
Its implementation is behind the `onReject` callback prop, which is not
under `src/`; the spec states `reviewing --reject--> processing`, guarded
by the admin role, and any other invocation is an invalid-transition
error.  The guard is the source's `canAct`. -/
def reject (userRole : Role) (sub : Submission) : Except String Submission :=
  if canAct sub userRole then
    Except.ok { sub with status := Status.processing }
  else
    Except.error "invalid transition"

/-- A chat message (`Message` in `../types`), restricted to the fields the
unread computation reads. -/
structure Message where
  submission_id : String
  sender_role : Role
  timestamp : Nat
deriving DecidableEq, Repr

/-- The per-submission aggregate built by `submissionChatInfo`. -/
structure ChatInfo where
  count : Nat
  lastMessage : Option Message
  hasNew : Bool
deriving DecidableEq, Repr

/-- One step of the `submissionChatInfo` fold in `AdminDashboard.tsx`
(lines 118-135), observed at the key `sId`: messages with a falsy
`submission_id` or another submission's id are skipped; a message strictly
newer than the current `lastMessage` (or the first one) becomes the new
`lastMessage` and recomputes `hasNew`; every message of `sId` bumps
`count`. -/
def chatStep (sId : String) (lastSeen : Nat) (acc : ChatInfo) (msg : Message) :
    ChatInfo :=
  if msg.submission_id = "" then acc
  else if msg.submission_id ≠ sId then acc
  else
    match acc.lastMessage with
    | none =>
        { count := acc.count + 1, lastMessage := some msg,
          hasNew := (msg.sender_role == Role.user) &&
            decide (msg.timestamp > lastSeen) }
    | some lm =>
        if msg.timestamp > lm.timestamp then
          { count := acc.count + 1, lastMessage := some msg,
            hasNew := (msg.sender_role == Role.user) &&
              decide (msg.timestamp > lastSeen) }
        else
          { acc with count := acc.count + 1 }

/-- The `submissionChatInfo` memo of `AdminDashboard.tsx`, observed at one
submission id: fold the full message stream with `chatStep`, the viewer's
last-read timestamp defaulting to `0` when no marker is stored
(`lastReadMap[sId] || 0`). -/
def submissionChatInfo (msgs : List Message)
    (lastReadMap : String → Option Nat) (sId : String) : ChatInfo :=
  msgs.foldl (chatStep sId ((lastReadMap sId).getD 0))
    { count := 0, lastMessage := none, hasNew := false }

/-- `needsPayment` in `DetailModal.tsx` (line 25): the checkout trigger is
rendered only when the plan is the quote-gated one, payment is pending a
quote, and `quotedAmount` is truthy (present and non-zero). -/
def needsPayment (s : Submission) : Bool :=
  decide (s.plan = PlanType.FLOOR_PLAN_CG) &&
  decide (s.paymentStatus = PaymentStatus.quote_pending) &&
  (match s.quotedAmount with
   | some a => decide (a ≠ 0)
   | none => false)

/-- The container's bounding box, as read from
`getBoundingClientRect()`: only `left` and `width` are used. -/
structure Rect where
  left : ℚ
  width : ℚ
deriving DecidableEq, Repr

/-- `updatePosition` in `DetailModal.tsx` (lines 54-59): the raw position
is the pointer's fractional offset inside the container times 100, and the
stored slider position is that value clamped into `[0, 100]` via
`Math.min(Math.max(position, 0), 100)`. -/
def updatePosition (clientX : ℚ) (rect : Rect) : ℚ :=
  min (max (((clientX - rect.left) / rect.width) * 100) 0) 100

/-- The clamp expression in the spec's own words:
`clamp(x, lo, hi) = min(max(x, lo), hi)`. -/
def specClamp (x lo hi : ℚ) : ℚ :=
  min (max x lo) hi

/-- The spec's scenario submission `S1`: plan `FURNITURE_BOTH`, no
results, status `processing`. -/
def sampleS1 : Submission :=
  { id := "S1", plan := PlanType.FURNITURE_BOTH, status := Status.processing,
    paymentStatus := PaymentStatus.paid, quotedAmount := none,
    resultRemoveUrl := "", resultAddUrl := "", resultDataUrl := "",
    assignedEditorId := none, timestamp := 0 }

/-- A submission sitting in review, used to instantiate gate theorems. -/
def sampleReviewing : Submission :=
  { id := "S3", plan := PlanType.OTHER "BASIC", status := Status.reviewing,
    paymentStatus := PaymentStatus.paid, quotedAmount := none,
    resultRemoveUrl := "", resultAddUrl := "https://a",
    resultDataUrl := "https://a", assignedEditorId := none, timestamp := 0 }

/-- The spec's scenario submission `S2`: quote-gated plan, payment pending
a quote, no quoted amount yet. -/
def sampleS2 : Submission :=
  { id := "S2", plan := PlanType.FLOOR_PLAN_CG, status := Status.pending,
    paymentStatus := PaymentStatus.quote_pending, quotedAmount := none,
    resultRemoveUrl := "", resultAddUrl := "", resultDataUrl := "",
    assignedEditorId := none, timestamp := 0 }

/-- Final record when the `remove` delivery's write lands first: both
uploads were started from the same pre-race snapshot `sampleS1`, so each
update object was computed from that snapshot, and the two writes then
commit in sequence. -/
def raceRemoveFirst : Submission :=
  applyUpdates
    (applyUpdates sampleS1 (computeDeliveryUpdates sampleS1 UploadType.remove "https://r"))
    (computeDeliveryUpdates sampleS1 UploadType.add "https://a")

/-- Final record when the `add` delivery's write lands first, both updates
computed from the same pre-race snapshot `sampleS1`. -/
def raceAddFirst : Submission :=
  applyUpdates
    (applyUpdates sampleS1 (computeDeliveryUpdates sampleS1 UploadType.add "https://a"))
    (computeDeliveryUpdates sampleS1 UploadType.remove "https://r")

/-- C7: if the blob upload fails during a delivery, `handleUpload` leaves
the submission record exactly as it was — no result URL is written and the
status is untouched — and the failure is the reported outcome. -/
theorem upload_failure_leaves_record_unchanged (s : Submission)
    (ty : UploadType) (e : String) :
    handleUpload s ty (Except.error e) = (s, Except.error e) :=
  rfl

/-- C2: the combined-status check of `handleUpload` is evaluated against
the captured snapshot, not a re-read record; when the `remove` and `add`
deliveries of a `FURNITURE_BOTH` submission both start before either write
lands, both writes commit (both result URLs are present) yet the final
status is still `processing` in either commit order — the lost update the
claim says cannot happen. -/
theorem concurrent_delivery_lost_update :
    raceRemoveFirst.resultRemoveUrl ≠ "" ∧ raceRemoveFirst.resultAddUrl ≠ "" ∧
    raceRemoveFirst.status = Status.processing ∧
    raceAddFirst.resultRemoveUrl ≠ "" ∧ raceAddFirst.resultAddUrl ≠ "" ∧
    raceAddFirst.status = Status.processing := by
  decide

/-- C10: a delivery touches only its own stage's fields — a `remove`
delivery writes `resultRemoveUrl` (plus the recomputed status) and leaves
`resultAddUrl`, `resultDataUrl`, `paymentStatus` and `quotedAmount`
unchanged; an `add` or `single` delivery writes `resultAddUrl` and
`resultDataUrl` with the same URL (plus the recomputed status) and leaves
`resultRemoveUrl`, `paymentStatus` and `quotedAmount` unchanged. -/
theorem delivery_frame (s : Submission) (url : String) :
    ((deliver s UploadType.remove url).resultRemoveUrl = url ∧
     (deliver s UploadType.remove url).resultAddUrl = s.resultAddUrl ∧
     (deliver s UploadType.remove url).resultDataUrl = s.resultDataUrl ∧
     (deliver s UploadType.remove url).paymentStatus = s.paymentStatus ∧
     (deliver s UploadType.remove url).quotedAmount = s.quotedAmount) ∧
    (∀ ty, ty = UploadType.add ∨ ty = UploadType.single →
      (deliver s ty url).resultRemoveUrl = s.resultRemoveUrl ∧
      (deliver s ty url).resultAddUrl = url ∧
      (deliver s ty url).resultDataUrl = url ∧
      (deliver s ty url).paymentStatus = s.paymentStatus ∧
      (deliver s ty url).quotedAmount = s.quotedAmount) := by
  constructor
  · simp [deliver, applyUpdates, computeDeliveryUpdates]
  · rintro ty (rfl | rfl) <;>
      simp [deliver, applyUpdates, computeDeliveryUpdates]

/-- Closed instance of `delivery_frame`: an `add` delivery on the scenario
submission leaves the remove-stage URL untouched. -/
theorem delivery_frame_witness :
    (UploadType.add = UploadType.add ∨ UploadType.add = UploadType.single) ∧
    (deliver sampleS1 UploadType.add "https://a").resultRemoveUrl =
      sampleS1.resultRemoveUrl :=
  ⟨Or.inl rfl,
    ((delivery_frame sampleS1 "https://a").2 UploadType.add (Or.inl rfl)).1⟩

/-- C3: `approve` and `reject` succeed exactly when the submission is
`reviewing` and the caller is an admin (the source's `canAct` gate);
`approve` moves the status to `completed` and `reject` to `processing`,
changing nothing else; any other invocation is an invalid-transition error
with no state change, and in particular no transition leaves `completed`. -/
theorem review_gate_transitions (s : Submission) (r : Role) :
    ((∃ t, approve r s = Except.ok t) ↔
      (s.status = Status.reviewing ∧ r = Role.admin)) ∧
    (∀ t, approve r s = Except.ok t → t = { s with status := Status.completed }) ∧
    ((∃ t, reject r s = Except.ok t) ↔
      (s.status = Status.reviewing ∧ r = Role.admin)) ∧
    (∀ t, reject r s = Except.ok t → t = { s with status := Status.processing }) ∧
    (s.status = Status.completed →
      approve r s = Except.error "invalid transition" ∧
      reject r s = Except.error "invalid transition") := by
  unfold approve reject canAct
  by_cases hs : s.status = Status.reviewing <;>
    by_cases hr : r = Role.admin <;>
    simp [hs, hr]

/-- Closed instance of `review_gate_transitions`: approving a reviewing
submission as an admin yields the same record completed. -/
theorem review_gate_transitions_witness :
    ∃ t, approve Role.admin sampleReviewing = Except.ok t ∧
      t.status = Status.completed := by
  obtain ⟨hiff, hok, -, -, -⟩ := review_gate_transitions sampleReviewing Role.admin
  obtain ⟨t, ht⟩ := hiff.mpr ⟨rfl, rfl⟩
  exact ⟨t, ht, by rw [hok t ht]⟩

/-- C4: whenever `parseInt` of the entered amount is `NaN` or non-positive,
`handleUpdateQuote` reports the validation alert synchronously and returns
before any effect — no persistence call is requested, the `schemaError`
state is untouched, and the record's `quotedAmount` is not mutated. -/
theorem setQuote_rejects_invalid (quoteAmount : String) (prev : Option String)
    (dbResult : Except DbError Unit) (s : Submission)
    (h : parseIntJS quoteAmount = none ∨
      ∃ a, parseIntJS quoteAmount = some a ∧ a ≤ 0) :
    handleUpdateQuote quoteAmount prev dbResult =
      { dbWriteRequested := none, alertShown := true, schemaError := prev } ∧
    recordAfterQuote s quoteAmount dbResult = s := by
  rcases h with h | ⟨a, ha, hle⟩
  · constructor
    · simp [handleUpdateQuote, h]
    · simp [recordAfterQuote, handleUpdateQuote, h]
  · constructor
    · simp [handleUpdateQuote, ha, hle]
    · simp [recordAfterQuote, handleUpdateQuote, ha, hle]

/-- Closed instance of `setQuote_rejects_invalid`: the input `-5` parses
to a non-positive amount and is rejected without any write. -/
theorem setQuote_rejects_invalid_witness :
    (parseIntJS "-5" = some (-5) ∧ (-5 : Int) ≤ 0) ∧
    handleUpdateQuote "-5" none (Except.ok ()) =
      { dbWriteRequested := none, alertShown := true, schemaError := none } :=
  ⟨⟨by decide, by decide⟩,
    (setQuote_rejects_invalid "-5" none (Except.ok ()) sampleS2
      (Or.inr ⟨-5, by decide, by decide⟩)).1⟩

/-- C6 counterexample: a quote-write failure whose cause is not a missing
column — a generic network failure — still sets the schema-remediation
message, so the schema error is not distinguishable from a generic write
failure as the claim states. -/
theorem schema_error_not_distinguished :
    (handleUpdateQuote "5000" none
      (Except.error (DbError.otherFailure "network timeout"))).schemaError =
      some migrationSQL := by
  decide

/-- C6 amended: every failure of the quote write — whatever its cause —
surfaces the schema-remediation error carrying the exact migration
statement as data, while a successful write clears it; the code does not
distinguish the missing-column cause from other write failures. -/
theorem quote_write_failure_surfaces_migration (quoteAmount : String)
    (prev : Option String) (a : Int) (e : DbError)
    (hp : parseIntJS quoteAmount = some a) (hpos : 0 < a) :
    (handleUpdateQuote quoteAmount prev (Except.error e)).schemaError =
      some migrationSQL ∧
    (handleUpdateQuote quoteAmount prev (Except.ok ())).schemaError = none := by
  constructor <;> simp [handleUpdateQuote, hp, not_le.mpr hpos]

/-- Closed instance of `quote_write_failure_surfaces_migration` at the
amount `5000` and a missing-column failure. -/
theorem quote_write_failure_surfaces_migration_witness :
    (parseIntJS "5000" = some 5000 ∧ (0 : Int) < 5000) ∧
    (handleUpdateQuote "5000" none
      (Except.error (DbError.missingColumn "quotedAmount"))).schemaError =
      some migrationSQL :=
  ⟨⟨by decide, by decide⟩,
    (quote_write_failure_surfaces_migration "5000" none 5000
      (DbError.missingColumn "quotedAmount") (by decide) (by decide)).1⟩

/-- C8: the checkout trigger is available exactly when the plan is
`FLOOR_PLAN_CG`, the payment status is `quote_pending` and `quotedAmount`
is present and non-zero; with no `quotedAmount` it never fires, and after
a successful `setQuote` with a positive parsed amount it becomes
available. -/
theorem checkout_trigger_gating (s : Submission) :
    (needsPayment s = true ↔
      (s.plan = PlanType.FLOOR_PLAN_CG ∧
        s.paymentStatus = PaymentStatus.quote_pending ∧
        ∃ a, s.quotedAmount = some a ∧ a ≠ 0)) ∧
    (s.quotedAmount = none → needsPayment s = false) ∧
    (∀ quoteAmount a, parseIntJS quoteAmount = some a → 0 < a →
      s.plan = PlanType.FLOOR_PLAN_CG →
      s.paymentStatus = PaymentStatus.quote_pending →
      needsPayment (recordAfterQuote s quoteAmount (Except.ok ())) = true) := by
  refine ⟨?_, ?_, ?_⟩
  · cases hq : s.quotedAmount with
    | none => simp [needsPayment, hq]
    | some a =>
        simp only [needsPayment, hq, Bool.and_eq_true, decide_eq_true_eq]
        constructor
        · rintro ⟨⟨h1, h2⟩, h3⟩
          exact ⟨h1, h2, a, rfl, h3⟩
        · rintro ⟨h1, h2, b, hb, h3⟩
          cases Option.some.inj hb
          exact ⟨⟨h1, h2⟩, h3⟩
  · intro hq
    simp [needsPayment, hq]
  · intro quoteAmount a hp hpos hplan hpay
    simp [recordAfterQuote, handleUpdateQuote, hp, not_le.mpr hpos,
      needsPayment, hplan, hpay, ne_of_gt hpos]

/-- Closed instance of `checkout_trigger_gating`: the scenario submission
`S2` cannot trigger checkout before a quote, and can after
`setQuote(S2, 5000)` succeeds. -/
theorem checkout_trigger_gating_witness :
    sampleS2.quotedAmount = none ∧ needsPayment sampleS2 = false ∧
    (parseIntJS "5000" = some 5000 ∧ (0 : Int) < 5000) ∧
    needsPayment (recordAfterQuote sampleS2 "5000" (Except.ok ())) = true := by
  have h := checkout_trigger_gating sampleS2
  exact ⟨rfl, h.2.1 rfl, ⟨by decide, by decide⟩,
    h.2.2 "5000" 5000 (by decide) (by decide) rfl rfl⟩

/-- C1: for a delivery write on a `FURNITURE_BOTH` submission (whose UI
offers only the `remove` and `add` drop zones), the recomputed status is
`reviewing` exactly when both stage result URLs are present after the
write, and otherwise the status is unchanged; for every other plan any
delivery sets the status to `reviewing` unconditionally.  The hypotheses
are that blob storage returns a non-empty URL and that the record entered
the write satisfying the spec's own invariant tying `reviewing` to the
presence of both results. -/
theorem delivery_status_recompute (s : Submission) (ty : UploadType)
    (url : String) (hurl : url ≠ "")
    (hty : s.plan = PlanType.FURNITURE_BOTH → ty ≠ UploadType.single)
    (hinv : s.status = Status.reviewing →
      s.resultRemoveUrl ≠ "" ∧ s.resultAddUrl ≠ "") :
    (s.plan = PlanType.FURNITURE_BOTH →
      ((deliver s ty url).status = Status.reviewing ↔
        ((deliver s ty url).resultRemoveUrl ≠ "" ∧
         (deliver s ty url).resultAddUrl ≠ "")) ∧
      (¬((deliver s ty url).resultRemoveUrl ≠ "" ∧
         (deliver s ty url).resultAddUrl ≠ "") →
        (deliver s ty url).status = s.status)) ∧
    (s.plan ≠ PlanType.FURNITURE_BOTH →
      (deliver s ty url).status = Status.reviewing) := by
  constructor
  · intro hp
    cases ty with
    | single => exact absurd rfl (hty hp)
    | remove =>
        by_cases ha : s.resultAddUrl = ""
        · have hns : s.status ≠ Status.reviewing := fun h => (hinv h).2 ha
          constructor <;>
            simp [deliver, applyUpdates, computeDeliveryUpdates, hp, ha,
              hurl, hns]
        · constructor <;>
            simp [deliver, applyUpdates, computeDeliveryUpdates, hp, ha, hurl]
    | add =>
        by_cases hr : s.resultRemoveUrl = ""
        · have hns : s.status ≠ Status.reviewing := fun h => (hinv h).1 hr
          constructor <;>
            simp [deliver, applyUpdates, computeDeliveryUpdates, hp, hr,
              hurl, hns]
        · constructor <;>
            simp [deliver, applyUpdates, computeDeliveryUpdates, hp, hr, hurl]
  · intro hp
    cases ty <;>
      simp [deliver, applyUpdates, computeDeliveryUpdates, hp]

/-- Closed instance of `delivery_status_recompute`: on the scenario
submission `S1`, delivering only the `remove` stage leaves the status at
`processing`, and delivering the `add` stage afterwards moves it to
`reviewing`. -/
theorem delivery_status_recompute_witness :
    ("https://r" : String) ≠ "" ∧
    (deliver sampleS1 UploadType.remove "https://r").status =
      Status.processing ∧
    (deliver (deliver sampleS1 UploadType.remove "https://r")
      UploadType.add "https://a").status = Status.reviewing := by
  have h1 := delivery_status_recompute sampleS1 UploadType.remove "https://r"
    (by decide) (fun _ => by decide) (fun h => by simp [sampleS1] at h)
  have step1 : (deliver sampleS1 UploadType.remove "https://r").status =
      Status.processing := by
    have := (h1.1 rfl).2 (by decide)
    simpa [sampleS1] using this
  have h2 := delivery_status_recompute
    (deliver sampleS1 UploadType.remove "https://r") UploadType.add "https://a"
    (by decide) (fun _ => by decide) (fun h => by rw [step1] at h; cases h)
  refine ⟨by decide, step1, ?_⟩
  exact (h2.1 rfl).1.mpr (by decide)

/-- C9: the stored slider position is exactly the spec's
`clamp(((pointerX - containerLeft) / containerWidth) * 100, 0, 100)`; it
always lies in `[0, 100]`, and for a pointer outside the container bounds
(positive width) it clamps to exactly `0` on the left and `100` on the
right. -/
theorem slider_position_clamped (clientX : ℚ) (rect : Rect)
    (hw : 0 < rect.width) :
    updatePosition clientX rect =
      specClamp (((clientX - rect.left) / rect.width) * 100) 0 100 ∧
    0 ≤ updatePosition clientX rect ∧
    updatePosition clientX rect ≤ 100 ∧
    (clientX < rect.left → updatePosition clientX rect = 0) ∧
    (rect.left + rect.width < clientX → updatePosition clientX rect = 100) := by
  unfold updatePosition specClamp
  refine ⟨rfl, ?_, ?_, ?_, ?_⟩
  · exact le_min (le_max_right _ 0) (by norm_num)
  · exact min_le_right _ 100
  · intro h
    have h1 : clientX - rect.left < 0 := sub_neg.mpr h
    have h2 : (clientX - rect.left) / rect.width < 0 :=
      div_neg_of_neg_of_pos h1 hw
    have h3 : ((clientX - rect.left) / rect.width) * 100 < 0 :=
      mul_neg_of_neg_of_pos h2 (by norm_num)
    rw [max_eq_right h3.le, min_eq_left (by norm_num : (0:ℚ) ≤ 100)]
  · intro h
    have h1 : rect.width < clientX - rect.left := by linarith
    have h2 : 1 < (clientX - rect.left) / rect.width := (one_lt_div hw).mpr h1
    have h3 : 100 < ((clientX - rect.left) / rect.width) * 100 := by
      have := mul_lt_mul_of_pos_right h2 (show (0:ℚ) < 100 by norm_num)
      linarith
    rw [max_eq_left (by linarith), min_eq_right h3.le]

/-- Closed instance of `slider_position_clamped`: with a container of left
edge `0` and width `2`, a pointer at `5` (beyond the right edge) stores
exactly `100`. -/
theorem slider_position_clamped_witness :
    (0 : ℚ) < 2 ∧ (0 : ℚ) + 2 < 5 ∧ updatePosition 5 ⟨0, 2⟩ = 100 := by
  have h := slider_position_clamped 5 ⟨0, 2⟩ (by norm_num)
  exact ⟨by norm_num, by norm_num, h.2.2.2.2 (by norm_num)⟩

/-- Invariant of the `submissionChatInfo` fold: `hasNew` is always the
unread predicate of the current `lastMessage` (false when there is none). -/
def chatInvariant (ls : Nat) (acc : ChatInfo) : Prop :=
  (acc.lastMessage = none → acc.hasNew = false) ∧
  (∀ lm, acc.lastMessage = some lm →
    acc.hasNew = ((lm.sender_role == Role.user) && decide (lm.timestamp > ls)))

theorem chatStep_invariant (sId : String) (ls : Nat) (acc : ChatInfo)
    (msg : Message) (h : chatInvariant ls acc) :
    chatInvariant ls (chatStep sId ls acc msg) := by
  unfold chatStep
  by_cases h0 : msg.submission_id = ""
  · rw [if_pos h0]; exact h
  rw [if_neg h0]
  by_cases h1 : msg.submission_id = sId
  · rw [if_neg (not_not_intro h1)]
    cases hlm : acc.lastMessage with
    | none =>
        refine ⟨fun hl => Option.noConfusion hl, fun lm hl => ?_⟩
        cases Option.some.inj hl
        rfl
    | some lm0 =>
        dsimp only
        by_cases ht : msg.timestamp > lm0.timestamp
        · rw [if_pos ht]
          refine ⟨fun hl => Option.noConfusion hl, fun lm hl => ?_⟩
          cases Option.some.inj hl
          rfl
        · rw [if_neg ht]
          refine ⟨fun hl => Option.noConfusion hl, fun lm hl => ?_⟩
          cases Option.some.inj hl
          exact h.2 lm0 hlm
  · rw [if_pos h1]; exact h

theorem chatFold_invariant (sId : String) (ls : Nat) :
    ∀ (msgs : List Message) (acc : ChatInfo), chatInvariant ls acc →
      chatInvariant ls (List.foldl (chatStep sId ls) acc msgs)
  | [], _, h => h
  | msg :: msgs, acc, h =>
      chatFold_invariant sId ls msgs (chatStep sId ls acc msg)
        (chatStep_invariant sId ls acc msg h)

/-- Case analysis of one `chatStep`: either the `lastMessage` is unchanged
(the message was skipped, or was not strictly newer), or it becomes the
incoming message, which then dominates the previous one. -/
theorem chatStep_lastMessage_cases (sId : String) (ls : Nat) (acc : ChatInfo)
    (msg : Message) :
    ((chatStep sId ls acc msg).lastMessage = acc.lastMessage ∧
      (msg.submission_id = "" ∨ msg.submission_id ≠ sId ∨
        ∃ lm0, acc.lastMessage = some lm0 ∧ msg.timestamp ≤ lm0.timestamp)) ∨
    ((chatStep sId ls acc msg).lastMessage = some msg ∧
      msg.submission_id = sId ∧ msg.submission_id ≠ "" ∧
      ∀ lm0, acc.lastMessage = some lm0 → lm0.timestamp ≤ msg.timestamp) := by
  unfold chatStep
  by_cases h0 : msg.submission_id = ""
  · rw [if_pos h0]; exact Or.inl ⟨rfl, Or.inl h0⟩
  rw [if_neg h0]
  by_cases h1 : msg.submission_id = sId
  · rw [if_neg (not_not_intro h1)]
    cases hlm : acc.lastMessage with
    | none =>
        exact Or.inr ⟨rfl, h1, h0, fun lm0 hl => Option.noConfusion hl⟩
    | some lm0 =>
        dsimp only
        by_cases ht : msg.timestamp > lm0.timestamp
        · rw [if_pos ht]
          refine Or.inr ⟨rfl, h1, h0, fun lm1 hl => ?_⟩
          cases Option.some.inj hl
          exact le_of_lt ht
        · rw [if_neg ht]
          exact Or.inl ⟨rfl, Or.inr (Or.inr ⟨lm0, rfl, not_lt.mp ht⟩)⟩
  · rw [if_pos h1]
    exact Or.inl ⟨rfl, Or.inr (Or.inl h1)⟩

/-- The fold's `lastMessage` is a message of the tracked submission whose
timestamp dominates every processed message of that submission. -/
theorem chatFold_lastMessage_max (sId : String) (ls : Nat) :
    ∀ (msgs : List Message) (acc : ChatInfo) (lm : Message),
      (List.foldl (chatStep sId ls) acc msgs).lastMessage = some lm →
      (acc.lastMessage = some lm ∨ (lm ∈ msgs ∧ lm.submission_id = sId)) ∧
      (∀ lm0, acc.lastMessage = some lm0 → lm0.timestamp ≤ lm.timestamp) ∧
      (∀ m ∈ msgs, m.submission_id = sId → m.submission_id ≠ "" →
        m.timestamp ≤ lm.timestamp)
  | [], acc, lm, h => by
      simp only [List.foldl] at h
      refine ⟨Or.inl h, ?_, by simp⟩
      intro lm0 h0
      rw [h] at h0
      cases Option.some.inj h0
      exact le_refl _
  | msg :: msgs, acc, lm, h => by
      have IH := chatFold_lastMessage_max sId ls msgs (chatStep sId ls acc msg)
        lm h
      rcases chatStep_lastMessage_cases sId ls acc msg with
        ⟨heq, hcase⟩ | ⟨hset, hid, hne, hbound⟩
      · refine ⟨?_, ?_, ?_⟩
        · rcases IH.1 with h1 | h1
          · exact Or.inl (heq ▸ h1)
          · exact Or.inr ⟨List.mem_cons_of_mem _ h1.1, h1.2⟩
        · intro lm0 h0
          exact IH.2.1 lm0 (by rw [heq]; exact h0)
        · intro m hm hmid hmne
          rcases List.mem_cons.mp hm with rfl | hm'
          · rcases hcase with hc | hc | ⟨lm0, hlm0, hle⟩
            · exact absurd hc hmne
            · exact absurd hmid hc
            · exact le_trans hle (IH.2.1 lm0 (by rw [heq]; exact hlm0))
          · exact IH.2.2 m hm' hmid hmne
      · refine ⟨?_, ?_, ?_⟩
        · rcases IH.1 with h1 | h1
          · rw [hset] at h1
            cases Option.some.inj h1
            exact Or.inr ⟨List.mem_cons_self _ _, hid⟩
          · exact Or.inr ⟨List.mem_cons_of_mem _ h1.1, h1.2⟩
        · intro lm0 h0
          exact le_trans (hbound lm0 h0) (IH.2.1 msg hset)
        · intro m hm hmid hmne
          rcases List.mem_cons.mp hm with rfl | hm'
          · exact IH.2.1 m hset
          · exact IH.2.2 m hm' hmid hmne

/-- One `chatStep` evolves `lastMessage` the same way whatever the viewer's
last-read timestamp is. -/
theorem chatStep_lastMessage_congr (sId : String) (ls1 ls2 : Nat)
    (acc1 acc2 : ChatInfo) (msg : Message)
    (h : acc1.lastMessage = acc2.lastMessage) :
    (chatStep sId ls1 acc1 msg).lastMessage =
      (chatStep sId ls2 acc2 msg).lastMessage := by
  unfold chatStep
  by_cases h0 : msg.submission_id = ""
  · rw [if_pos h0, if_pos h0]; exact h
  rw [if_neg h0, if_neg h0]
  by_cases h1 : msg.submission_id = sId
  · rw [if_neg (not_not_intro h1), if_neg (not_not_intro h1)]
    cases hlm : acc1.lastMessage with
    | none =>
        have hlm2 : acc2.lastMessage = none := by rw [← h]; exact hlm
        rw [hlm2]
    | some lm0 =>
        have hlm2 : acc2.lastMessage = some lm0 := by rw [← h]; exact hlm
        rw [hlm2]
        dsimp only
        by_cases ht : msg.timestamp > lm0.timestamp
        · rw [if_pos ht, if_pos ht]
        · rw [if_neg ht, if_neg ht]
  · rw [if_pos h1, if_pos h1]; exact h

theorem chatFold_lastMessage_congr (sId : String) (ls1 ls2 : Nat) :
    ∀ (msgs : List Message) (acc1 acc2 : ChatInfo),
      acc1.lastMessage = acc2.lastMessage →
      (List.foldl (chatStep sId ls1) acc1 msgs).lastMessage =
        (List.foldl (chatStep sId ls2) acc2 msgs).lastMessage
  | [], _, _, h => h
  | msg :: msgs, acc1, acc2, h =>
      chatFold_lastMessage_congr sId ls1 ls2 msgs _ _
        (chatStep_lastMessage_congr sId ls1 ls2 acc1 acc2 msg h)

/-- C5: the staff-view unread flag computed by `submissionChatInfo` is
true exactly when the maximum-timestamp message of the submission (the
fold's `lastMessage`, which dominates every message of that submission)
has `sender_role` `user` and its timestamp is strictly greater than the
viewer's stored last-read timestamp (defaulting to `0` when no marker
exists); moving the last-read marker to any value at or above that
timestamp makes the flag false. -/
theorem unread_flag_correct (msgs : List Message)
    (lastReadMap : String → Option Nat) (sId : String) (hs : sId ≠ "")
    (lm : Message)
    (h : (submissionChatInfo msgs lastReadMap sId).lastMessage = some lm) :
    ((submissionChatInfo msgs lastReadMap sId).hasNew = true ↔
      (lm.sender_role = Role.user ∧ (lastReadMap sId).getD 0 < lm.timestamp)) ∧
    lm ∈ msgs ∧ lm.submission_id = sId ∧
    (∀ m ∈ msgs, m.submission_id = sId → m.timestamp ≤ lm.timestamp) ∧
    (∀ lastReadMap' : String → Option Nat,
      lm.timestamp ≤ (lastReadMap' sId).getD 0 →
      (submissionChatInfo msgs lastReadMap' sId).hasNew = false) := by
  simp only [submissionChatInfo] at h ⊢
  have hinit : chatInvariant ((lastReadMap sId).getD 0)
      { count := 0, lastMessage := none, hasNew := false } :=
    ⟨fun _ => rfl, fun _ hl => Option.noConfusion hl⟩
  have hinv := chatFold_invariant sId ((lastReadMap sId).getD 0) msgs
    { count := 0, lastMessage := none, hasNew := false } hinit
  have hchar := hinv.2 lm h
  have hmax := chatFold_lastMessage_max sId ((lastReadMap sId).getD 0) msgs
    { count := 0, lastMessage := none, hasNew := false } lm h
  have hmem : lm ∈ msgs ∧ lm.submission_id = sId := by
    rcases hmax.1 with h1 | h1
    · exact absurd h1 (fun hx => Option.noConfusion hx)
    · exact h1
  refine ⟨?_, hmem.1, hmem.2, ?_, ?_⟩
  · rw [hchar]
    simp [Bool.and_eq_true, beq_iff_eq, decide_eq_true_eq]
  · intro m hm hmid
    exact hmax.2.2 m hm hmid (fun hx => hs (by rw [← hmid]; exact hx))
  · intro lastReadMap' hle
    have hlast :
        (List.foldl (chatStep sId ((lastReadMap' sId).getD 0))
          { count := 0, lastMessage := none, hasNew := false } msgs).lastMessage =
        some lm := by
      rw [chatFold_lastMessage_congr sId ((lastReadMap' sId).getD 0)
        ((lastReadMap sId).getD 0) msgs
        { count := 0, lastMessage := none, hasNew := false }
        { count := 0, lastMessage := none, hasNew := false } rfl]
      exact h
    have hinv' := chatFold_invariant sId ((lastReadMap' sId).getD 0) msgs
      { count := 0, lastMessage := none, hasNew := false }
      ⟨fun _ => rfl, fun _ hl => Option.noConfusion hl⟩
    rw [hinv'.2 lm hlast]
    simp only [Bool.and_eq_false_iff]
    right
    simpa using not_lt.mpr hle

/-- A small concrete message stream used to instantiate the unread-flag
theorem: two messages for submission `a` (an admin one, then a newer user
one) and one for submission `b`. -/
def demoMsgs : List Message :=
  [ { submission_id := "a", sender_role := Role.admin, timestamp := 3 },
    { submission_id := "a", sender_role := Role.user, timestamp := 5 },
    { submission_id := "b", sender_role := Role.user, timestamp := 9 } ]

/-- Closed instance of `unread_flag_correct`: submission `a`'s newest
message is from the user at timestamp 5, so the flag is set with no
last-read marker and cleared once the marker reaches 5. -/
theorem unread_flag_correct_witness :
    ("a" : String) ≠ "" ∧
    (submissionChatInfo demoMsgs (fun _ => none) "a").hasNew = true ∧
    (submissionChatInfo demoMsgs (fun _ => some 5) "a").hasNew = false := by
  have h := unread_flag_correct demoMsgs (fun _ => none) "a" (by decide)
    { submission_id := "a", sender_role := Role.user, timestamp := 5 }
    (by decide)
  exact ⟨by decide, h.1.mpr ⟨rfl, by decide⟩,
    h.2.2.2.2 (fun _ => some 5) (by decide)⟩

end StagingPro
